import Mathlib

/-!
# Shallow embedding of `capture-rust` (src/src/main.rs)

This file embeds the interaction FSM (`handle_event`), the display cache
and compositor (`DisplayCache::new`, `DisplayCache::update_display`,
`DisplayCache::draw_rectangle`) and the save path construction
(`save_image_webp`) of the screen-capture utility, and proves the claims
about them.

Modelling conventions:
* `i32` values are modelled as `Int`; `u32`/`usize` values as `Nat`.
  The cast `as u32` is modelled by `u32ofInt` (reduction mod 2^32, exact
  for values in `[0, 2^32)`).  The cast `i32 as usize` occurs in the code
  only on values that are nonnegative in every reachable call (guarded by
  `max(_, 0)` / bounds checks, or by the nonnegativity preconditions of
  the claims), where it agrees with `Int.toNat`.
* Mouse coordinates are delivered by `minifb` as `f32` but are always
  integral pixel coordinates (the window clamps them to the window
  rectangle); they are modelled as `Int`, on which `f32` arithmetic
  (`clamp`, `as i32`) is exact for the pixel ranges involved.
* Pixel buffers (`Vec<u32>`) are `List Nat`; an indexed store
  `buf[idx] = v` is `List.set`, which leaves the list unchanged when the
  index is out of bounds — claim C10 shows the out-of-bounds case is
  never reached.
* External collaborators (screen grab, WebP encoder, filesystem write,
  window handle) are represented by explicit parameters/effect values:
  the grab result and the success of `fs::write` are inputs, window and
  log operations are recorded as an effect list.
-/

/-- Rust range `lo..hi` over `i32`, as the list `[lo, lo+1, ..., hi-1]`
(empty when `hi ≤ lo`). -/
def intRange (lo hi : Int) : List Int :=
  (List.range (hi - lo).toNat).map (fun (k : Nat) => lo + (k : Int))

/-- A rectangle `(x, y, w, h)` as carried by the Rust code (`i32` fields). -/
structure Rect where
  x : Int
  y : Int
  w : Int
  h : Int
deriving DecidableEq, Repr

/-- The flat buffer index `y * width + i` computed by the Rust code as
`y as usize * self.width as usize + i as usize` (both values nonnegative
at every use). -/
def rowIdx (W : Nat) (y i : Int) : Nat := y.toNat * W + i.toNat

/-- Fold a list of indexed stores `buf[idx] = f idx` over a buffer, in
order.  `drawRectangle` uses it with a constant `f` (the outline color),
`restoreInterior` with `f idx = original[idx]`. -/
def writeFold (f : Nat → Nat) (idxs : List Nat) (buf : List Nat) : List Nat :=
  idxs.foldl (fun b idx => b.set idx (f idx)) buf

/-- Indices written by the top/bottom-edge loop of
`DisplayCache::draw_rectangle`: for `i in x.max(0)..(x+w).min(width)`,
row `y` if `0 ≤ y < height` and row `y+h-1` if `0 ≤ y+h-1 < height`. -/
def topBottomWrites (W H : Nat) (r : Rect) : List Nat :=
  (intRange (max r.x 0) (min (r.x + r.w) (W : Int))).flatMap (fun i =>
    (if 0 ≤ r.y ∧ r.y < (H : Int) then [rowIdx W r.y i] else []) ++
    (if 0 ≤ r.y + r.h - 1 ∧ r.y + r.h - 1 < (H : Int) then
      [rowIdx W (r.y + r.h - 1) i] else []))

/-- Indices written by the left/right-edge loop of
`DisplayCache::draw_rectangle`: for `j in y.max(0)..(y+h).min(height)`,
column `x` if `0 ≤ x < width` and column `x+w-1` if `0 ≤ x+w-1 < width`. -/
def leftRightWrites (W H : Nat) (r : Rect) : List Nat :=
  (intRange (max r.y 0) (min (r.y + r.h) (H : Int))).flatMap (fun j =>
    (if 0 ≤ r.x ∧ r.x < (W : Int) then [rowIdx W j r.x] else []) ++
    (if 0 ≤ r.x + r.w - 1 ∧ r.x + r.w - 1 < (W : Int) then
      [rowIdx W j (r.x + r.w - 1)] else []))

/-- All indices written by one call to `DisplayCache::draw_rectangle`,
in write order (top/bottom loop first, then left/right loop). -/
def drawRectWrites (W H : Nat) (r : Rect) : List Nat :=
  topBottomWrites W H r ++ leftRightWrites W H r

/-- `DisplayCache::draw_rectangle`: store `color` at every (guarded)
edge index of `rect`, in the order the Rust loops perform the stores. -/
def drawRectangle (W H : Nat) (r : Rect) (color : Nat) (buf : List Nat) :
    List Nat :=
  writeFold (fun _ => color) (drawRectWrites W H r) buf

/-- Indices visited by the interior-restore loop of
`DisplayCache::update_display`: rows `ry.max(0)..(ry+rh).min(height)`,
columns `rx.max(0)..(rx+rw).min(width)`.  (The Rust code converts the
column bounds with `as usize`; for the nonnegative rectangles of the
claims this agrees with the integer range used here.) -/
def interiorIdxs (W H : Nat) (r : Rect) : List Nat :=
  (intRange (max r.y 0) (min (r.y + r.h) (H : Int))).flatMap (fun y =>
    (intRange (max r.x 0) (min (r.x + r.w) (W : Int))).map (fun x =>
      rowIdx W y x))

/-- The interior-restore loop of `DisplayCache::update_display`:
`display[idx] = original[idx]` for each interior index. -/
def restoreInterior (orig : List Nat) (W H : Nat) (r : Rect)
    (buf : List Nat) : List Nat :=
  writeFold (fun idx => orig.getD idx 0) (interiorIdxs W H r) buf

/-- The three pixel buffers of `DisplayCache` (ARGB `u32` values as
`Nat`), with the image dimensions. -/
structure DisplayCache where
  original : List Nat
  dimmed : List Nat
  display : List Nat
  width : Nat
  height : Nat
deriving DecidableEq, Repr

/-- `DisplayCache::update_display`.  With a red rectangle: start from a
copy of `dimmed`, restore `original` inside the red interior, draw the
red outline `0xFFFF0000`, then the green outline `0xFF00FF00` if a green
rectangle is present.  Without a red rectangle: a copy of `original`. -/
def DisplayCache.updateDisplay (c : DisplayCache)
    (red green : Option Rect) : DisplayCache :=
  match red with
  | some r =>
    let d0 := c.dimmed
    let d1 := restoreInterior c.original c.width c.height r d0
    let d2 := drawRectangle c.width c.height r 0xFFFF0000 d1
    let d3 := match green with
      | some g => drawRectangle c.width c.height g 0xFF00FF00 d2
      | none => d2
    { c with display := d3 }
  | none => { c with display := c.original }

/-- One RGBA8 input pixel (each channel `< 256`, as read from a `u8`). -/
structure Pixel where
  r : Nat
  g : Nat
  b : Nat
  a : Nat
deriving DecidableEq, Repr

/-- The packing `(a << 24) | (r << 16) | (g << 8) | b` from
`DisplayCache::new`. -/
def packARGB (a r g b : Nat) : Nat :=
  (a <<< 24) ||| (r <<< 16) ||| (g <<< 8) ||| b

/-- The `original_buffer` entry for one pixel in `DisplayCache::new`. -/
def origPixel (p : Pixel) : Nat := packARGB p.a p.r p.g p.b

/-- The `dimmed_buffer` entry for one pixel in `DisplayCache::new`:
`gray = (r*3 + g*6 + b*1) / 10`, each channel `(c*3 + gray*7) / 10`. -/
def dimPixel (p : Pixel) : Nat :=
  let gray := (p.r * 3 + p.g * 6 + p.b * 1) / 10
  let dimmedR := (p.r * 3 + gray * 7) / 10
  let dimmedG := (p.g * 3 + gray * 7) / 10
  let dimmedB := (p.b * 3 + gray * 7) / 10
  packARGB p.a dimmedR dimmedG dimmedB

/-- An RGBA8 image (`ImageBuffer<Rgba<u8>, Vec<u8>>`): dimensions plus
the pixel list in row-major order (`image.pixels()`). -/
structure Image where
  width : Nat
  height : Nat
  pixels : List Pixel
deriving DecidableEq, Repr

/-- `DisplayCache::new`: precompute `original` and `dimmed` per pixel;
`display` starts as a clone of `original`. -/
def DisplayCache.new (img : Image) : DisplayCache :=
  let original := img.pixels.map origPixel
  let dimmed := img.pixels.map dimPixel
  { original := original
    dimmed := dimmed
    display := original
    width := img.width
    height := img.height }

/-- The geometric condition under which `draw_rectangle` writes the
pixel `(px, py)`: on the top or bottom row within the horizontal edge
span, or on the left or right column within the vertical edge span
(each write is individually bounds-guarded). -/
abbrev onOutline (W H : Nat) (r : Rect) (px py : Nat) : Prop :=
  (((py : Int) = r.y ∨ (py : Int) = r.y + r.h - 1) ∧ (py : Int) < (H : Int) ∧
    max r.x 0 ≤ (px : Int) ∧ (px : Int) < min (r.x + r.w) (W : Int)) ∨
  (((px : Int) = r.x ∨ (px : Int) = r.x + r.w - 1) ∧ (px : Int) < (W : Int) ∧
    max r.y 0 ≤ (py : Int) ∧ (py : Int) < min (r.y + r.h) (H : Int))

/-- `(px, py)` lies in the half-open rectangle
`[x, x+w) × [y, y+h)`. -/
abbrev inRectHO (r : Rect) (px py : Nat) : Prop :=
  r.x ≤ (px : Int) ∧ (px : Int) < r.x + r.w ∧
  r.y ≤ (py : Int) ∧ (py : Int) < r.y + r.h

/-- `(px, py)` is written by the green outline pass (no green rectangle:
never). -/
abbrev greenOutline (W H : Nat) (g : Option Rect) (px py : Nat) : Prop :=
  match g with
  | some gr => onOutline W H gr px py
  | none => False

/-! ## FSM embedding (`handle_event` and friends) -/

/-- The keys `handle_event` distinguishes (`Key::Escape`, `Key::S`, and
anything else). -/
inductive MKey where
  | escape
  | s
  | other
deriving DecidableEq, Repr

/-- `minifb::MouseButton`. -/
inductive MouseBtn where
  | left
  | middle
  | right
deriving DecidableEq, Repr

/-- `AppEvent` from the source.  Mouse coordinates (`f32` in the source,
always integral pixel positions) are modelled as `Int`. -/
inductive AppEvent where
  | keyPressed : MKey → AppEvent
  | keyReleased : MKey → AppEvent
  | mousePressed : MouseBtn → Int → Int → AppEvent
  | mouseReleased : MouseBtn → Int → Int → AppEvent
  | mouseMoved : Int → Int → AppEvent
  | windowResized : Nat → Nat → AppEvent
  | globalHotkeyPressed
  | quit
deriving DecidableEq, Repr

/-- The FSM `State` from the source (anchor/cursor points as pairs,
regions as `Rect`). -/
inductive State where
  | idle
  | fullscreenCapture : Image → DisplayCache → State
  | selectingRegion : Image → DisplayCache → Int × Int → Int × Int → State
  | regionSelected : Image → DisplayCache → Rect → State
  | selectingSubRegion :
      Image → DisplayCache → Rect → Int × Int → Int × Int → State
  | subRegionSelected : Image → DisplayCache → Rect → Rect → State
deriving DecidableEq

/-- `i32 as u32` (two's-complement reinterpretation): reduction
modulo `2^32`. -/
def u32ofInt (i : Int) : Nat := (i % (2 : Int) ^ 32).toNat

/-- The observable outcome of one `save_image_webp` call: the directory
and file names it builds, the arguments passed to `crop_imm` (the crop
itself and the WebP encode are external), whether `fs::write` succeeded,
and the log line printed. -/
structure SaveOutcome where
  dirName : String
  fileName : String
  cropArgs : Nat × Nat × Nat × Nat
  wrote : Bool
  stderrLog : Option String
  stdoutLog : Option String
deriving DecidableEq, Repr

/-- `save_image_webp`: build `W{screenW}H{screenH}` and
`{dir}/screenshot_{ts}_Lx{x}Ty{y}W{width}H{height}.webp`, crop the sub
region when present (else the `(x, y, width, height)` rectangle), and
report one log line — standard error on write failure, standard output
on success.  `ts` is the `SystemTime::now` millisecond timestamp and
`writeOk` the success of `fs::write`, both external inputs. -/
def saveImageWebp (_image : Image) (x y : Int) (width height : Nat)
    (screenW screenH : Nat) (subRegion : Option (Int × Int × Nat × Nat))
    (ts : Nat) (writeOk : Bool) : SaveOutcome :=
  let dirName := "W" ++ toString screenW ++ "H" ++ toString screenH
  let fileName := dirName ++ "/screenshot_" ++ toString ts ++ "_Lx" ++
    toString x ++ "Ty" ++ toString y ++ "W" ++ toString width ++ "H" ++
    toString height ++ ".webp"
  let cropArgs :=
    match subRegion with
    | some (sx, sy, sw2, sh2) => (u32ofInt sx, u32ofInt sy, sw2, sh2)
    | none => (u32ofInt x, u32ofInt y, width, height)
  { dirName := dirName
    fileName := fileName
    cropArgs := cropArgs
    wrote := writeOk
    stderrLog := if writeOk then none else some ("Failed to save image")
    stdoutLog :=
      if writeOk then some ("Image saved as: " ++ fileName) else none }

/-- External inputs of one `handle_event` call: the result of
`capture_screen` (used only on the hotkey transition), the timestamp and
the filesystem-write success (used only on the save transitions). -/
structure ExtIn where
  capture : Option Image
  ts : Nat
  writeOk : Bool
deriving DecidableEq

/-- Side effects `handle_event` performs on the window / process /
filesystem, in call order. -/
inductive Effect where
  | setPosition : Int → Int → Effect
  | setTitle : String → Effect
  | sleepMs : Nat → Effect
  | saveCall : SaveOutcome → Effect
  | stderrLine : String → Effect
  | stdoutLine : String → Effect
  | exitProcess : Int → Effect
deriving DecidableEq

def titleIdle : String :=
  "Screen Capture - Press Ctrl+Alt+D to capture screen, ESC to exit"

def titleCaptured : String :=
  "Screen captured - Click and drag to select region, ESC to cancel"

def titleRegion : String :=
  "Region selected - Press Ctrl+S to save, or click and drag to select sub-region, ESC to re-select"

def titleSub : String :=
  "Sub-region selected - Press Ctrl+S to save, ESC to re-select"

/-- `f32::clamp` on integral values (the source clamps the sub-region
cursor to the red rectangle; `lo ≤ hi` at every reachable call). -/
def clampF (v lo hi : Int) : Int :=
  if v < lo then lo else if v > hi then hi else v

/-- `handle_event`: one `match (event, state)` step.  Returns the
optional new state (`None` = keep the current state) and the side
effects, in the order the source performs them.  The `(Escape, Idle)`
arm calls `process::exit(0)` and never returns; it is modelled as no
state change plus an `exitProcess` effect. -/
def handleEvent (screenW screenH : Nat) (ext : ExtIn) (event : AppEvent)
    (state : State) : Option State × List Effect :=
  match event, state with
  | .keyPressed .escape, .idle =>
      (none, [.exitProcess 0])
  | .keyPressed .escape, .fullscreenCapture img _ =>
      (some .idle,
       [.setPosition (-((img.width : Int) * 2)) (-((img.height : Int) * 2)),
        .setTitle titleIdle])
  | .keyPressed .escape, .selectingRegion img cache _ _ =>
      (some (.fullscreenCapture img cache), [.setTitle titleCaptured])
  | .keyPressed .escape, .regionSelected img cache _ =>
      (some (.fullscreenCapture img cache), [.setTitle titleCaptured])
  | .keyPressed .escape, .selectingSubRegion img cache red _ _ =>
      (some (.regionSelected img cache red), [.setTitle titleRegion])
  | .keyPressed .escape, .subRegionSelected img cache red _ =>
      (some (.regionSelected img cache red), [.setTitle titleRegion])
  | .globalHotkeyPressed, .idle =>
      (match ext.capture with
       | some img =>
          (some (.fullscreenCapture img (DisplayCache.new img)),
           [.setPosition (-((screenW : Int) * 2)) (-((screenH : Int) * 2)),
            .sleepMs 100, .setPosition 0 0, .setTitle titleCaptured])
       | none =>
          (some .idle,
           [.setPosition (-((screenW : Int) * 2)) (-((screenH : Int) * 2)),
            .sleepMs 100, .setPosition 0 0,
            .stderrLine ("Failed to capture screen")]))
  | .keyPressed .s, .regionSelected img _ region =>
      let so := saveImageWebp img region.x region.y
        (u32ofInt region.w) (u32ofInt region.h) screenW screenH none
        ext.ts ext.writeOk
      (some .idle,
       [.saveCall so,
        .setPosition (-((img.width : Int) * 2)) (-((img.height : Int) * 2)),
        .setTitle titleIdle])
  | .keyPressed .s, .subRegionSelected img _ red green =>
      let so := saveImageWebp img red.x red.y
        (u32ofInt red.w) (u32ofInt red.h) screenW screenH
        (some (green.x, green.y, u32ofInt green.w, u32ofInt green.h))
        ext.ts ext.writeOk
      (some .idle,
       [.saveCall so,
        .setPosition (-((img.width : Int) * 2)) (-((img.height : Int) * 2)),
        .setTitle titleIdle])
  | .mousePressed .left mx my, .fullscreenCapture img cache =>
      (some (.selectingRegion img cache (mx, my) (mx, my)), [])
  | .mouseMoved mx my, .selectingRegion img cache anchor _ =>
      (some (.selectingRegion img cache anchor (mx, my)), [])
  | .mouseReleased .left _ _, .selectingRegion img cache anchor current =>
      let width := (current.1 - anchor.1).natAbs
      let height := (current.2 - anchor.2).natAbs
      if width > 10 ∧ height > 10 then
        (some (.regionSelected img cache
          ⟨min anchor.1 current.1, min anchor.2 current.2,
           (width : Int), (height : Int)⟩),
         [.setTitle titleRegion])
      else
        (some (.fullscreenCapture img cache), [.setTitle titleCaptured])
  | .mousePressed .left mx my, .regionSelected img cache region =>
      if region.x ≤ mx ∧ mx ≤ region.x + region.w ∧
         region.y ≤ my ∧ my ≤ region.y + region.h then
        (some (.selectingSubRegion img cache region (mx, my) (mx, my)), [])
      else
        (none, [])
  | .mouseMoved mx my, .selectingSubRegion img cache red anchor _ =>
      let cx := clampF mx red.x (red.x + red.w)
      let cy := clampF my red.y (red.y + red.h)
      (some (.selectingSubRegion img cache red anchor (cx, cy)), [])
  | .mouseReleased .left _ _, .selectingSubRegion img cache red anchor current =>
      let width := (current.1 - anchor.1).natAbs
      let height := (current.2 - anchor.2).natAbs
      if width > 5 ∧ height > 5 then
        (some (.subRegionSelected img cache red
          ⟨min anchor.1 current.1, min anchor.2 current.2,
           (width : Int), (height : Int)⟩),
         [.setTitle titleSub])
      else
        (some (.regionSelected img cache red), [.setTitle titleRegion])
  | _, _ => (none, [])

/-- One main-loop event application: `None` keeps the current state. -/
def stepState (screenW screenH : Nat) (ext : ExtIn) (s : State)
    (e : AppEvent) : State :=
  ((handleEvent screenW screenH ext e s).1).getD s

/-- Fold a list of events through the FSM. -/
def runFSM (screenW screenH : Nat) (ext : ExtIn) (s : State)
    (evs : List AppEvent) : State :=
  evs.foldl (stepState screenW screenH ext) s

/-- `0 ≤ w ∧ 0 ≤ h`. -/
abbrev rectNonneg (r : Rect) : Prop := 0 ≤ r.w ∧ 0 ≤ r.h

/-- A point lies in the closed rectangle `[x, x+w] × [y, y+h]` (the
guard used for entering sub-region selection, and the range the cursor
clamp produces). -/
abbrev inClosedRect (r : Rect) (p : Int × Int) : Prop :=
  r.x ≤ p.1 ∧ p.1 ≤ r.x + r.w ∧ r.y ≤ p.2 ∧ p.2 ≤ r.y + r.h

/-- The nesting invariant of the green rectangle inside the red one. -/
abbrev nested (red green : Rect) : Prop :=
  red.x ≤ green.x ∧ red.y ≤ green.y ∧
  green.x + green.w ≤ red.x + red.w ∧ green.y + green.h ≤ red.y + red.h

/-- The inductive invariant maintained by `handle_event`: committed and
in-progress sub-region data stay inside the (nonnegative) red
rectangle. -/
def FsmInv : State → Prop
  | .idle => True
  | .fullscreenCapture _ _ => True
  | .selectingRegion _ _ _ _ => True
  | .regionSelected _ _ red => rectNonneg red
  | .selectingSubRegion _ _ red anchor current =>
      rectNonneg red ∧ inClosedRect red anchor ∧ inClosedRect red current
  | .subRegionSelected _ _ red green => rectNonneg red ∧ nested red green

/-! ## Basic lemmas about the write folds and index lists -/

theorem mem_intRange {a lo hi : Int} : a ∈ intRange lo hi ↔ lo ≤ a ∧ a < hi := by
  unfold intRange
  rw [List.mem_map]
  constructor
  · rintro ⟨k, hk, hEq⟩
    rw [List.mem_range] at hk
    subst hEq
    constructor <;> omega
  · intro h
    refine ⟨(a - lo).toNat, ?_, ?_⟩
    · rw [List.mem_range]
      omega
    · omega

theorem length_writeFold (f : Nat → Nat) (idxs : List Nat) (buf : List Nat) :
    (writeFold f idxs buf).length = buf.length := by
  induction idxs generalizing buf with
  | nil => rfl
  | cons j t ih =>
    show (writeFold f t (buf.set j (f j))).length = buf.length
    rw [ih, List.length_set]

theorem getD_writeFold (f : Nat → Nat) (idxs : List Nat) (buf : List Nat)
    (i : Nat) (hi : i < buf.length) :
    (writeFold f idxs buf).getD i 0 =
      if i ∈ idxs then f i else buf.getD i 0 := by
  induction idxs generalizing buf with
  | nil => simp [writeFold]
  | cons j t ih =>
    have hlen : i < (buf.set j (f j)).length := by
      rwa [List.length_set]
    have hstep : (writeFold f (j :: t) buf).getD i 0 =
        (writeFold f t (buf.set j (f j))).getD i 0 := rfl
    rw [hstep, ih _ hlen]
    by_cases hm : i ∈ t
    · simp [hm, List.mem_cons]
    · have hset : (buf.set j (f j)).getD i 0 =
          if j = i then f j else buf.getD i 0 := by
        rw [List.getD_eq_getElem?_getD, List.getD_eq_getElem?_getD]
        by_cases hji : j = i
        · subst hji
          rw [List.getElem?_set_self hi]
          simp
        · rw [List.getElem?_set_ne hji]
          simp [hji]
      rw [if_neg hm, hset]
      by_cases hji : j = i
      · subst hji
        simp
      · have hni : i ∉ (j :: t) := by
          intro hmem
          rcases List.mem_cons.mp hmem with h | h
          · exact hji h.symm
          · exact hm h
        rw [if_neg hji, if_neg hni]

theorem mem_ite_singleton {a z : Nat} {c : Prop} [Decidable c] :
    a ∈ (if c then [z] else ([] : List Nat)) ↔ c ∧ a = z := by
  by_cases h : c
  · simp [h]
  · simp [h]

theorem idx_decompose {W a b c d : Nat} (hb : b < W) (hd : d < W)
    (h : a * W + b = c * W + d) : a = c ∧ b = d := by
  have key : ∀ x y : Nat, y < W → (x * W + y) / W = x := by
    intro x y hy
    rw [Nat.mul_comm, Nat.add_comm, Nat.add_mul_div_left _ _ (by omega),
      Nat.div_eq_of_lt hy, Nat.zero_add]
  have h1 : a = c := by
    rw [← key a b hb, h, key c d hd]
  subst h1
  exact ⟨rfl, Nat.add_left_cancel h⟩

theorem rowIdx_lt {W H : Nat} {y i : Int} (hy : 0 ≤ y) (hyH : y < (H : Int))
    (hi : 0 ≤ i) (hiW : i < (W : Int)) : rowIdx W y i < W * H := by
  unfold rowIdx
  have h1 : y.toNat < H := by omega
  have h2 : i.toNat < W := by omega
  calc y.toNat * W + i.toNat < y.toNat * W + W := by omega
    _ = (y.toNat + 1) * W := by ring
    _ ≤ H * W := Nat.mul_le_mul_right W (by omega)
    _ = W * H := Nat.mul_comm H W

theorem mem_topBottomWrites {W H : Nat} {r : Rect} {px py : Nat}
    (hpx : px < W) :
    (py * W + px) ∈ topBottomWrites W H r ↔
      (((py : Int) = r.y ∨ (py : Int) = r.y + r.h - 1) ∧
        (py : Int) < (H : Int) ∧
        max r.x 0 ≤ (px : Int) ∧ (px : Int) < min (r.x + r.w) (W : Int)) := by
  unfold topBottomWrites
  rw [List.mem_flatMap]
  constructor
  · rintro ⟨i, hi, hmem⟩
    rw [mem_intRange] at hi
    have hi0 : (0 : Int) ≤ i := by omega
    have hiW : i < (W : Int) := by omega
    have hiN : i.toNat < W := by omega
    rcases List.mem_append.1 hmem with h | h
    · rw [mem_ite_singleton] at h
      obtain ⟨⟨hy0, hyH⟩, heq⟩ := h
      unfold rowIdx at heq
      obtain ⟨h1, h2⟩ := idx_decompose hpx hiN heq
      refine ⟨Or.inl (by omega), by omega, by omega, by omega⟩
    · rw [mem_ite_singleton] at h
      obtain ⟨⟨hy0, hyH⟩, heq⟩ := h
      unfold rowIdx at heq
      obtain ⟨h1, h2⟩ := idx_decompose hpx hiN heq
      refine ⟨Or.inr (by omega), by omega, by omega, by omega⟩
  · rintro ⟨hrow, hH, hx1, hx2⟩
    refine ⟨(px : Int), ?_, ?_⟩
    · rw [mem_intRange]
      exact ⟨hx1, hx2⟩
    · rcases hrow with h | h
      · refine List.mem_append.2 (Or.inl ?_)
        rw [mem_ite_singleton]
        refine ⟨⟨by omega, by omega⟩, ?_⟩
        unfold rowIdx
        have h1 : r.y.toNat = py := by omega
        have h2 : ((px : Int)).toNat = px := by omega
        rw [h1, h2]
      · refine List.mem_append.2 (Or.inr ?_)
        rw [mem_ite_singleton]
        refine ⟨⟨by omega, by omega⟩, ?_⟩
        unfold rowIdx
        have h1 : (r.y + r.h - 1).toNat = py := by omega
        have h2 : ((px : Int)).toNat = px := by omega
        rw [h1, h2]

theorem mem_leftRightWrites {W H : Nat} {r : Rect} {px py : Nat}
    (hpx : px < W) :
    (py * W + px) ∈ leftRightWrites W H r ↔
      (((px : Int) = r.x ∨ (px : Int) = r.x + r.w - 1) ∧
        (px : Int) < (W : Int) ∧
        max r.y 0 ≤ (py : Int) ∧ (py : Int) < min (r.y + r.h) (H : Int)) := by
  unfold leftRightWrites
  rw [List.mem_flatMap]
  constructor
  · rintro ⟨j, hj, hmem⟩
    rw [mem_intRange] at hj
    have hj0 : (0 : Int) ≤ j := by omega
    rcases List.mem_append.1 hmem with h | h
    · rw [mem_ite_singleton] at h
      obtain ⟨⟨hx0, hxW⟩, heq⟩ := h
      unfold rowIdx at heq
      have hxN : r.x.toNat < W := by omega
      obtain ⟨h1, h2⟩ := idx_decompose hpx hxN heq
      refine ⟨Or.inl (by omega), by omega, by omega, by omega⟩
    · rw [mem_ite_singleton] at h
      obtain ⟨⟨hx0, hxW⟩, heq⟩ := h
      unfold rowIdx at heq
      have hxN : (r.x + r.w - 1).toNat < W := by omega
      obtain ⟨h1, h2⟩ := idx_decompose hpx hxN heq
      refine ⟨Or.inr (by omega), by omega, by omega, by omega⟩
  · rintro ⟨hcol, hW, hy1, hy2⟩
    refine ⟨(py : Int), ?_, ?_⟩
    · rw [mem_intRange]
      exact ⟨hy1, hy2⟩
    · rcases hcol with h | h
      · refine List.mem_append.2 (Or.inl ?_)
        rw [mem_ite_singleton]
        refine ⟨⟨by omega, by omega⟩, ?_⟩
        unfold rowIdx
        have h1 : ((py : Int)).toNat = py := by omega
        have h2 : r.x.toNat = px := by omega
        rw [h1, h2]
      · refine List.mem_append.2 (Or.inr ?_)
        rw [mem_ite_singleton]
        refine ⟨⟨by omega, by omega⟩, ?_⟩
        unfold rowIdx
        have h1 : ((py : Int)).toNat = py := by omega
        have h2 : (r.x + r.w - 1).toNat = px := by omega
        rw [h1, h2]

theorem mem_drawRectWrites {W H : Nat} {r : Rect} {px py : Nat}
    (hpx : px < W) :
    (py * W + px) ∈ drawRectWrites W H r ↔ onOutline W H r px py := by
  unfold drawRectWrites onOutline
  rw [List.mem_append, mem_topBottomWrites hpx, mem_leftRightWrites hpx]

theorem mem_interiorIdxs {W H : Nat} {r : Rect} {px py : Nat}
    (hpx : px < W) (hpy : py < H) :
    (py * W + px) ∈ interiorIdxs W H r ↔ inRectHO r px py := by
  unfold interiorIdxs inRectHO
  rw [List.mem_flatMap]
  constructor
  · rintro ⟨y, hy, hmem⟩
    rw [mem_intRange] at hy
    rw [List.mem_map] at hmem
    obtain ⟨x, hx, heq⟩ := hmem
    rw [mem_intRange] at hx
    have hy0 : (0 : Int) ≤ y := by omega
    have hx0 : (0 : Int) ≤ x := by omega
    have hxN : x.toNat < W := by omega
    unfold rowIdx at heq
    obtain ⟨h1, h2⟩ := idx_decompose hxN hpx heq
    refine ⟨by omega, by omega, by omega, by omega⟩
  · rintro ⟨h1, h2, h3, h4⟩
    refine ⟨(py : Int), ?_, ?_⟩
    · rw [mem_intRange]
      constructor <;> omega
    · rw [List.mem_map]
      refine ⟨(px : Int), ?_, ?_⟩
      · rw [mem_intRange]
        constructor <;> omega
      · unfold rowIdx
        have e1 : ((py : Int)).toNat = py := by omega
        have e2 : ((px : Int)).toNat = px := by omega
        rw [e1, e2]

theorem drawRectWrites_lt {W H : Nat} {r : Rect} {idx : Nat}
    (h : idx ∈ drawRectWrites W H r) : idx < W * H := by
  unfold drawRectWrites topBottomWrites leftRightWrites at h
  rcases List.mem_append.1 h with h | h <;>
    · rw [List.mem_flatMap] at h
      obtain ⟨i, hi, hmem⟩ := h
      rw [mem_intRange] at hi
      rcases List.mem_append.1 hmem with h2 | h2 <;>
        · rw [mem_ite_singleton] at h2
          obtain ⟨⟨hg1, hg2⟩, rfl⟩ := h2
          exact rowIdx_lt (by omega) (by omega) (by omega) (by omega)

theorem interiorIdxs_lt {W H : Nat} {r : Rect} {idx : Nat}
    (h : idx ∈ interiorIdxs W H r) : idx < W * H := by
  unfold interiorIdxs at h
  rw [List.mem_flatMap] at h
  obtain ⟨y, hy, hmem⟩ := h
  rw [mem_intRange] at hy
  rw [List.mem_map] at hmem
  obtain ⟨x, hx, rfl⟩ := hmem
  rw [mem_intRange] at hx
  exact rowIdx_lt (by omega) (by omega) (by omega) (by omega)

theorem length_restoreInterior (orig : List Nat) (W H : Nat) (r : Rect)
    (buf : List Nat) : (restoreInterior orig W H r buf).length = buf.length :=
  length_writeFold _ _ _

theorem length_drawRectangle (W H : Nat) (r : Rect) (color : Nat)
    (buf : List Nat) : (drawRectangle W H r color buf).length = buf.length :=
  length_writeFold _ _ _

theorem getD_updateDisplay_some (c : DisplayCache) (r : Rect)
    (g : Option Rect) (hD : c.dimmed.length = c.width * c.height)
    {idx : Nat} (hidx : idx < c.width * c.height) :
    (c.updateDisplay (some r) g).display.getD idx 0 =
      if idx ∈ g.elim ([] : List Nat) (drawRectWrites c.width c.height) then
        0xFF00FF00
      else if idx ∈ drawRectWrites c.width c.height r then 0xFFFF0000
      else if idx ∈ interiorIdxs c.width c.height r then
        c.original.getD idx 0
      else c.dimmed.getD idx 0 := by
  have len1 :
      (restoreInterior c.original c.width c.height r c.dimmed).length =
        c.width * c.height := by
    rw [length_restoreInterior, hD]
  have len2 :
      (drawRectangle c.width c.height r 0xFFFF0000
        (restoreInterior c.original c.width c.height r c.dimmed)).length =
        c.width * c.height := by
    rw [length_drawRectangle, len1]
  cases g with
  | none =>
    have hdisp : (c.updateDisplay (some r) none).display =
        drawRectangle c.width c.height r 0xFFFF0000
          (restoreInterior c.original c.width c.height r c.dimmed) := rfl
    rw [hdisp]
    unfold drawRectangle
    rw [getD_writeFold _ _ _ _ (by rw [len1]; exact hidx)]
    unfold restoreInterior
    rw [getD_writeFold _ _ _ _ (by rw [hD]; exact hidx)]
    simp
  | some gr =>
    have hdisp : (c.updateDisplay (some r) (some gr)).display =
        drawRectangle c.width c.height gr 0xFF00FF00
          (drawRectangle c.width c.height r 0xFFFF0000
            (restoreInterior c.original c.width c.height r c.dimmed)) := rfl
    rw [hdisp]
    unfold drawRectangle
    rw [getD_writeFold _ _ _ _
      (by rw [length_writeFold, length_restoreInterior, hD]; exact hidx)]
    rw [getD_writeFold _ _ _ _ (by rw [length_restoreInterior, hD]; exact hidx)]
    unfold restoreInterior
    rw [getD_writeFold _ _ _ _ (by rw [hD]; exact hidx)]
    simp

theorem FsmInv_step (sw sh : Nat) (ext : ExtIn) (st : State) (e : AppEvent)
    (h : FsmInv st) : FsmInv (stepState sw sh ext st e) := by
  cases e with
  | keyPressed k =>
    cases k with
    | escape =>
      cases st with
      | idle => exact h
      | fullscreenCapture img cache => trivial
      | selectingRegion img cache a c => trivial
      | regionSelected img cache red => trivial
      | selectingSubRegion img cache red a c => exact h.1
      | subRegionSelected img cache red g => exact h.1
    | s =>
      cases st with
      | idle => exact h
      | fullscreenCapture img cache => exact h
      | selectingRegion img cache a c => exact h
      | regionSelected img cache red => trivial
      | selectingSubRegion img cache red a c => exact h
      | subRegionSelected img cache red g => trivial
    | other => cases st <;> exact h
  | keyReleased k => cases st <;> exact h
  | mousePressed b mx my =>
    cases b with
    | left =>
      cases st with
      | idle => exact h
      | fullscreenCapture img cache => trivial
      | selectingRegion img cache a c => exact h
      | regionSelected img cache red =>
        by_cases hin : red.x ≤ mx ∧ mx ≤ red.x + red.w ∧
            red.y ≤ my ∧ my ≤ red.y + red.h
        · have hs : stepState sw sh ext
              (.regionSelected img cache red) (.mousePressed .left mx my) =
              .selectingSubRegion img cache red (mx, my) (mx, my) := by
            simp [stepState, handleEvent, hin]
          rw [hs]
          exact ⟨h, hin, hin⟩
        · have hs : stepState sw sh ext
              (.regionSelected img cache red) (.mousePressed .left mx my) =
              .regionSelected img cache red := by
            simp [stepState, handleEvent, hin]
          rw [hs]
          exact h
      | selectingSubRegion img cache red a c => exact h
      | subRegionSelected img cache red g => exact h
    | middle => cases st <;> exact h
    | right => cases st <;> exact h
  | mouseReleased b mx my =>
    cases b with
    | left =>
      cases st with
      | idle => exact h
      | fullscreenCapture img cache => exact h
      | selectingRegion img cache a c =>
        by_cases hc : (c.1 - a.1).natAbs > 10 ∧ (c.2 - a.2).natAbs > 10
        · have hs : stepState sw sh ext
              (.selectingRegion img cache a c) (.mouseReleased .left mx my) =
              .regionSelected img cache
                ⟨min a.1 c.1, min a.2 c.2,
                 ((c.1 - a.1).natAbs : Int), ((c.2 - a.2).natAbs : Int)⟩ := by
            simp [stepState, handleEvent, hc]
          rw [hs]
          exact ⟨Int.natCast_nonneg _, Int.natCast_nonneg _⟩
        · have hs : stepState sw sh ext
              (.selectingRegion img cache a c) (.mouseReleased .left mx my) =
              .fullscreenCapture img cache := by
            simp [stepState, handleEvent, hc]
          rw [hs]
          trivial
      | regionSelected img cache red => exact h
      | selectingSubRegion img cache red a c =>
        obtain ⟨hred, ha, hc2⟩ := h
        obtain ⟨ha1, ha2, ha3, ha4⟩ := ha
        obtain ⟨hb1, hb2, hb3, hb4⟩ := hc2
        by_cases hcm : (c.1 - a.1).natAbs > 5 ∧ (c.2 - a.2).natAbs > 5
        · have hs : stepState sw sh ext
              (.selectingSubRegion img cache red a c)
              (.mouseReleased .left mx my) =
              .subRegionSelected img cache red
                ⟨min a.1 c.1, min a.2 c.2,
                 ((c.1 - a.1).natAbs : Int), ((c.2 - a.2).natAbs : Int)⟩ := by
            simp [stepState, handleEvent, hcm]
          rw [hs]
          refine ⟨hred, ?_, ?_, ?_, ?_⟩ <;>
            · dsimp only
              omega
        · have hs : stepState sw sh ext
              (.selectingSubRegion img cache red a c)
              (.mouseReleased .left mx my) =
              .regionSelected img cache red := by
            simp [stepState, handleEvent, hcm]
          rw [hs]
          exact hred
      | subRegionSelected img cache red g => exact h
    | middle => cases st <;> exact h
    | right => cases st <;> exact h
  | mouseMoved mx my =>
    cases st with
    | idle => exact h
    | fullscreenCapture img cache => exact h
    | selectingRegion img cache a c => trivial
    | regionSelected img cache red => exact h
    | selectingSubRegion img cache red a c =>
      obtain ⟨hred, ha, hc2⟩ := h
      obtain ⟨hw, hh⟩ := hred
      have hs : stepState sw sh ext
          (.selectingSubRegion img cache red a c) (.mouseMoved mx my) =
          .selectingSubRegion img cache red a
            (clampF mx red.x (red.x + red.w),
             clampF my red.y (red.y + red.h)) := by
        simp [stepState, handleEvent]
      rw [hs]
      refine ⟨⟨hw, hh⟩, ha, ?_, ?_, ?_, ?_⟩ <;>
        · simp only [clampF]
          split_ifs <;> omega
    | subRegionSelected img cache red g => exact h
  | windowResized a b => cases st <;> exact h
  | globalHotkeyPressed =>
    cases st with
    | idle =>
      cases hcap : ext.capture with
      | none =>
        have hs : stepState sw sh ext .idle .globalHotkeyPressed = .idle := by
          simp [stepState, handleEvent, hcap]
        rw [hs]
        trivial
      | some img =>
        have hs : stepState sw sh ext .idle .globalHotkeyPressed =
            .fullscreenCapture img (DisplayCache.new img) := by
          simp [stepState, handleEvent, hcap]
        rw [hs]
        trivial
    | fullscreenCapture img cache => exact h
    | selectingRegion img cache a c => exact h
    | regionSelected img cache red => exact h
    | selectingSubRegion img cache red a c => exact h
    | subRegionSelected img cache red g => exact h
  | quit => cases st <;> exact h

theorem FsmInv_run (sw sh : Nat) (ext : ExtIn) (st : State)
    (evs : List AppEvent) (h : FsmInv st) :
    FsmInv (runFSM sw sh ext st evs) := by
  induction evs generalizing st with
  | nil => exact h
  | cons e t ih => exact ih _ (FsmInv_step sw sh ext st e h)

/-! ## Claim theorems -/

/-- C1: for every display cache and nonnegative red rectangle (optional
green rectangle), after one `update_display` call with red present, each
composite pixel `(px, py)`: on the green outline it carries `0xFF00FF00`
(green is drawn after red); otherwise on the red outline it carries
`0xFFFF0000`; otherwise inside the half-open red rectangle it equals the
original buffer; otherwise (strictly outside red) it equals the dimmed
buffer. -/
theorem C1_update_display_composite (c : DisplayCache) (r : Rect)
    (g : Option Rect) (hD : c.dimmed.length = c.width * c.height)
    (_hrx : 0 ≤ r.x) (_hry : 0 ≤ r.y) (_hrw : 0 ≤ r.w) (_hrh : 0 ≤ r.h)
    (px py : Nat) (hpx : px < c.width) (hpy : py < c.height) :
    (greenOutline c.width c.height g px py →
      (c.updateDisplay (some r) g).display.getD (py * c.width + px) 0 =
        0xFF00FF00) ∧
    (¬ greenOutline c.width c.height g px py →
      onOutline c.width c.height r px py →
      (c.updateDisplay (some r) g).display.getD (py * c.width + px) 0 =
        0xFFFF0000) ∧
    (¬ greenOutline c.width c.height g px py →
      ¬ onOutline c.width c.height r px py → inRectHO r px py →
      (c.updateDisplay (some r) g).display.getD (py * c.width + px) 0 =
        c.original.getD (py * c.width + px) 0) ∧
    (¬ greenOutline c.width c.height g px py →
      ¬ onOutline c.width c.height r px py → ¬ inRectHO r px py →
      (c.updateDisplay (some r) g).display.getD (py * c.width + px) 0 =
        c.dimmed.getD (py * c.width + px) 0) := by
  have hidx : py * c.width + px < c.width * c.height := by
    have hb := rowIdx_lt (W := c.width) (H := c.height)
      (y := (py : Int)) (i := (px : Int))
      (by omega) (by omega) (by omega) (by omega)
    unfold rowIdx at hb
    exact_mod_cast hb
  have hmain := getD_updateDisplay_some c r g hD hidx
  have hgreen : (py * c.width + px) ∈
      g.elim ([] : List Nat) (drawRectWrites c.width c.height) ↔
      greenOutline c.width c.height g px py := by
    cases g with
    | none => simp [greenOutline]
    | some gr =>
      show (py * c.width + px) ∈ drawRectWrites c.width c.height gr ↔
        onOutline c.width c.height gr px py
      exact mem_drawRectWrites hpx
  refine ⟨?_, ?_, ?_, ?_⟩
  · intro hg
    rw [hmain, if_pos (hgreen.mpr hg)]
  · intro hng hr
    rw [hmain, if_neg (fun hm => hng (hgreen.mp hm)),
      if_pos ((mem_drawRectWrites hpx).mpr hr)]
  · intro hng hnr hin
    rw [hmain, if_neg (fun hm => hng (hgreen.mp hm)),
      if_neg (fun hm => hnr ((mem_drawRectWrites hpx).mp hm)),
      if_pos ((mem_interiorIdxs hpx hpy).mpr hin)]
  · intro hng hnr hnin
    rw [hmain, if_neg (fun hm => hng (hgreen.mp hm)),
      if_neg (fun hm => hnr ((mem_drawRectWrites hpx).mp hm)),
      if_neg (fun hm => hnin ((mem_interiorIdxs hpx hpy).mp hm))]

theorem C1_update_display_composite_witness :
    ((⟨[1, 2, 3, 4], [5, 6, 7, 8], [0, 0, 0, 0], 2, 2⟩ :
        DisplayCache).updateDisplay (some ⟨0, 0, 2, 2⟩) none).display.getD 0 0 =
      0xFFFF0000 :=
  (C1_update_display_composite ⟨[1, 2, 3, 4], [5, 6, 7, 8], [0, 0, 0, 0], 2, 2⟩
    ⟨0, 0, 2, 2⟩ none (by decide) (by decide) (by decide) (by decide)
    (by decide) 0 0 (by decide) (by decide)).2.1 (by decide) (by decide)

/-- C7: the composite produced by `update_display` depends only on
`original`, `dimmed` and the dimensions (never on the previous
`display` contents), hence running it twice with the same arguments is
the identity on the result of running it once. -/
theorem C7_update_display_idempotent (c c' : DisplayCache)
    (red green : Option Rect)
    (h1 : c.original = c'.original) (h2 : c.dimmed = c'.dimmed)
    (h3 : c.width = c'.width) (h4 : c.height = c'.height) :
    (c.updateDisplay red green).display =
      (c'.updateDisplay red green).display ∧
    (c.updateDisplay red green).updateDisplay red green =
      c.updateDisplay red green := by
  constructor
  · cases red with
    | none => simpa [DisplayCache.updateDisplay] using h1
    | some r =>
      cases green with
      | none => simp [DisplayCache.updateDisplay, h1, h2, h3, h4]
      | some gr => simp [DisplayCache.updateDisplay, h1, h2, h3, h4]
  · cases red with
    | none => rfl
    | some r =>
      cases green with
      | none => rfl
      | some gr => rfl

theorem C7_update_display_idempotent_witness :
    ((⟨[1, 2], [3, 4], [0, 0], 2, 1⟩ :
        DisplayCache).updateDisplay (some ⟨0, 0, 1, 1⟩) none).updateDisplay
        (some ⟨0, 0, 1, 1⟩) none =
      (⟨[1, 2], [3, 4], [0, 0], 2, 1⟩ :
        DisplayCache).updateDisplay (some ⟨0, 0, 1, 1⟩) none :=
  (C7_update_display_idempotent ⟨[1, 2], [3, 4], [0, 0], 2, 1⟩
    ⟨[1, 2], [3, 4], [0, 0], 2, 1⟩ (some ⟨0, 0, 1, 1⟩) none
    rfl rfl rfl rfl).2

/-- C4: `DisplayCache::new` packs each input pixel `(A,R,G,B)` into
`original[i]` and stores in `dimmed[i]` the pack of
`(A, (3R+7·gray)/10, (3G+7·gray)/10, (3B+7·gray)/10)` with
`gray = (3R+6G+B)/10`, in truncating integer arithmetic. -/
theorem C4_cache_new_pixels (img : Image) (i : Nat)
    (h : i < img.pixels.length) :
    (DisplayCache.new img).original.getD i 0 =
      packARGB (img.pixels.getD i ⟨0, 0, 0, 0⟩).a
        (img.pixels.getD i ⟨0, 0, 0, 0⟩).r
        (img.pixels.getD i ⟨0, 0, 0, 0⟩).g
        (img.pixels.getD i ⟨0, 0, 0, 0⟩).b ∧
    (DisplayCache.new img).dimmed.getD i 0 =
      packARGB (img.pixels.getD i ⟨0, 0, 0, 0⟩).a
        ((3 * (img.pixels.getD i ⟨0, 0, 0, 0⟩).r +
          7 * ((3 * (img.pixels.getD i ⟨0, 0, 0, 0⟩).r +
                6 * (img.pixels.getD i ⟨0, 0, 0, 0⟩).g +
                (img.pixels.getD i ⟨0, 0, 0, 0⟩).b) / 10)) / 10)
        ((3 * (img.pixels.getD i ⟨0, 0, 0, 0⟩).g +
          7 * ((3 * (img.pixels.getD i ⟨0, 0, 0, 0⟩).r +
                6 * (img.pixels.getD i ⟨0, 0, 0, 0⟩).g +
                (img.pixels.getD i ⟨0, 0, 0, 0⟩).b) / 10)) / 10)
        ((3 * (img.pixels.getD i ⟨0, 0, 0, 0⟩).b +
          7 * ((3 * (img.pixels.getD i ⟨0, 0, 0, 0⟩).r +
                6 * (img.pixels.getD i ⟨0, 0, 0, 0⟩).g +
                (img.pixels.getD i ⟨0, 0, 0, 0⟩).b) / 10)) / 10) := by
  have hp : img.pixels[i]? = some img.pixels[i] := List.getElem?_eq_getElem h
  have hgetD : img.pixels.getD i ⟨0, 0, 0, 0⟩ = img.pixels[i] := by
    rw [List.getD_eq_getElem?_getD, hp]
    rfl
  constructor
  · show (img.pixels.map origPixel).getD i 0 = _
    rw [List.getD_eq_getElem?_getD, List.getElem?_map, hp, hgetD]
    rfl
  · show (img.pixels.map dimPixel).getD i 0 = _
    rw [List.getD_eq_getElem?_getD, List.getElem?_map, hp, hgetD]
    show dimPixel img.pixels[i] = _
    unfold dimPixel
    have e1 : img.pixels[i].r * 3 + img.pixels[i].g * 6 + img.pixels[i].b * 1 =
        3 * img.pixels[i].r + 6 * img.pixels[i].g + img.pixels[i].b := by
      ring
    rw [e1]
    ring_nf

theorem C4_cache_new_pixels_witness :
    (DisplayCache.new ⟨1, 1, [⟨100, 50, 30, 255⟩]⟩).original.getD 0 0 =
      packARGB 255 100 50 30 ∧
    (DisplayCache.new ⟨1, 1, [⟨100, 50, 30, 255⟩]⟩).dimmed.getD 0 0 =
      packARGB 255 ((3 * 100 + 7 * ((3 * 100 + 6 * 50 + 30) / 10)) / 10)
        ((3 * 50 + 7 * ((3 * 100 + 6 * 50 + 30) / 10)) / 10)
        ((3 * 30 + 7 * ((3 * 100 + 6 * 50 + 30) / 10)) / 10) :=
  C4_cache_new_pixels ⟨1, 1, [⟨100, 50, 30, 255⟩]⟩ 0 (by decide)

/-- C10: every store performed by `draw_rectangle` hits an index below
`width*height` for arbitrary integer rectangles, and, for a red
rectangle with nonnegative components, so does every store of the
interior-restore loop of `update_display` — so the out-of-bounds branch
of the guarded store is unreachable. -/
theorem C10_buffer_writes_in_bounds (W H : Nat) (r : Rect) :
    (∀ idx ∈ drawRectWrites W H r, idx < W * H) ∧
    (0 ≤ r.x → 0 ≤ r.y → 0 ≤ r.w → 0 ≤ r.h →
      ∀ idx ∈ interiorIdxs W H r, idx < W * H) :=
  ⟨fun _ hm => drawRectWrites_lt hm,
   fun _ _ _ _ _ hm => interiorIdxs_lt hm⟩

theorem C10_buffer_writes_in_bounds_witness :
    (0 : Nat) < 3 * 3 ∧ (4 : Nat) < 3 * 3 :=
  ⟨(C10_buffer_writes_in_bounds 3 3 ⟨0, 0, 2, 2⟩).1 0 (by decide),
   (C10_buffer_writes_in_bounds 3 3 ⟨0, 0, 2, 2⟩).2 (by decide) (by decide)
     (by decide) (by decide) 4 (by decide)⟩

/-- C2: whenever a run of the FSM from `Idle` is in the Green
(`SubRegionSelected`) state, the committed green rectangle is nested in
the red one: `red.x ≤ green.x`, `red.y ≤ green.y`,
`green.x+green.w ≤ red.x+red.w`, `green.y+green.h ≤ red.y+red.h`. -/
theorem C2_green_nested_in_red (sw sh : Nat) (ext : ExtIn)
    (evs : List AppEvent) (img : Image) (cache : DisplayCache)
    (red green : Rect)
    (h : runFSM sw sh ext State.idle evs =
      State.subRegionSelected img cache red green) :
    red.x ≤ green.x ∧ red.y ≤ green.y ∧
      green.x + green.w ≤ red.x + red.w ∧
      green.y + green.h ≤ red.y + red.h := by
  have hinv := FsmInv_run sw sh ext State.idle evs trivial
  rw [h] at hinv
  exact hinv.2

theorem C2_green_nested_in_red_witness :
    (0 : Int) ≤ 5 ∧ (0 : Int) ≤ 5 ∧
      (5 : Int) + 7 ≤ 0 + 20 ∧ (5 : Int) + 7 ≤ 0 + 20 :=
  C2_green_nested_in_red 1 1 ⟨some ⟨1, 1, [⟨0, 0, 0, 0⟩]⟩, 0, true⟩
    [.globalHotkeyPressed, .mousePressed .left 0 0, .mouseMoved 20 20,
     .mouseReleased .left 20 20, .mousePressed .left 5 5, .mouseMoved 12 12,
     .mouseReleased .left 12 12]
    ⟨1, 1, [⟨0, 0, 0, 0⟩]⟩ (DisplayCache.new ⟨1, 1, [⟨0, 0, 0, 0⟩]⟩)
    ⟨0, 0, 20, 20⟩ ⟨5, 5, 7, 7⟩ (by decide)

/-- C3 (counterexample): from `Red((100,100,400,300))` the sequence
`MouseDown@(450,450)`, `MouseMove@(1000,1000)`, `MouseUp` does NOT
commit a green rectangle: `(450,450)` fails the in-red guard
(`450 > 100 + 300`), so the click is inert and the FSM stays in the
same `Red` state — refuting the claimed committed
`Green` with `green = (450,400,50,50)`. -/
theorem C3_counterexample_click_outside_red :
    runFSM 1920 1080 ⟨none, 0, true⟩
      (.regionSelected ⟨0, 0, []⟩ ⟨[], [], [], 0, 0⟩ ⟨100, 100, 400, 300⟩)
      [.mousePressed .left 450 450, .mouseMoved 1000 1000,
       .mouseReleased .left 1000 1000] =
      .regionSelected ⟨0, 0, []⟩ ⟨[], [], [], 0, 0⟩ ⟨100, 100, 400, 300⟩ ∧
    runFSM 1920 1080 ⟨none, 0, true⟩
      (.regionSelected ⟨0, 0, []⟩ ⟨[], [], [], 0, 0⟩ ⟨100, 100, 400, 300⟩)
      [.mousePressed .left 450 450, .mouseMoved 1000 1000,
       .mouseReleased .left 1000 1000] ≠
      .subRegionSelected ⟨0, 0, []⟩ ⟨[], [], [], 0, 0⟩ ⟨100, 100, 400, 300⟩
        ⟨450, 400, 50, 50⟩ := by
  decide

/-- C3 (amended): with the anchor moved inside red — `MouseDown@(450,350)`
instead of `(450,450)` — the cursor of `MouseMove@(1000,1000)` is clamped
to `(500,400)` and, since `|Δx| = 50 > 5` and `|Δy| = 50 > 5`, `MouseUp`
commits `Green` with `green = (450,350,50,50)`, nested in red. -/
theorem C3_amended_clamped_commit :
    runFSM 1920 1080 ⟨none, 0, true⟩
      (.regionSelected ⟨0, 0, []⟩ ⟨[], [], [], 0, 0⟩ ⟨100, 100, 400, 300⟩)
      [.mousePressed .left 450 350, .mouseMoved 1000 1000] =
      .selectingSubRegion ⟨0, 0, []⟩ ⟨[], [], [], 0, 0⟩ ⟨100, 100, 400, 300⟩
        (450, 350) (500, 400) ∧
    runFSM 1920 1080 ⟨none, 0, true⟩
      (.regionSelected ⟨0, 0, []⟩ ⟨[], [], [], 0, 0⟩ ⟨100, 100, 400, 300⟩)
      [.mousePressed .left 450 350, .mouseMoved 1000 1000,
       .mouseReleased .left 1000 1000] =
      .subRegionSelected ⟨0, 0, []⟩ ⟨[], [], [], 0, 0⟩ ⟨100, 100, 400, 300⟩
        ⟨450, 350, 50, 50⟩ ∧
    nested ⟨100, 100, 400, 300⟩ ⟨450, 350, 50, 50⟩ := by
  decide

/-- C5: a `MouseUp` in `DraggingRed` commits
`Red(min anchor cursor, |cursor-anchor|)` iff both components of
`|cursor-anchor|` exceed 10, and otherwise returns to `Full`; in
particular a `(10,10)` drag does not commit and a `(11,11)` drag
does. -/
theorem C5_red_commit_iff_threshold (sw sh : Nat) (ext : ExtIn)
    (img : Image) (cache : DisplayCache) (a c : Int × Int) (mx my : Int) :
    ((handleEvent sw sh ext (.mouseReleased .left mx my)
        (.selectingRegion img cache a c)).1 =
      some (.regionSelected img cache
        ⟨min a.1 c.1, min a.2 c.2, ((c.1 - a.1).natAbs : Int),
         ((c.2 - a.2).natAbs : Int)⟩) ↔
      ((c.1 - a.1).natAbs > 10 ∧ (c.2 - a.2).natAbs > 10)) ∧
    (¬ ((c.1 - a.1).natAbs > 10 ∧ (c.2 - a.2).natAbs > 10) →
      (handleEvent sw sh ext (.mouseReleased .left mx my)
        (.selectingRegion img cache a c)).1 =
      some (.fullscreenCapture img cache)) ∧
    (handleEvent sw sh ext (.mouseReleased .left mx my)
        (.selectingRegion img cache a (a.1 + 10, a.2 + 10))).1 =
      some (.fullscreenCapture img cache) ∧
    (handleEvent sw sh ext (.mouseReleased .left mx my)
        (.selectingRegion img cache a (a.1 + 11, a.2 + 11))).1 =
      some (.regionSelected img cache ⟨a.1, a.2, 11, 11⟩) := by
  refine ⟨?_, ?_, ?_, ?_⟩
  · by_cases hc : (c.1 - a.1).natAbs > 10 ∧ (c.2 - a.2).natAbs > 10
    · simp [handleEvent, hc]
    · simp [handleEvent, hc]
  · intro hc
    simp [handleEvent, hc]
  · have e1 : a.1 + 10 - a.1 = 10 := by ring
    have e2 : a.2 + 10 - a.2 = 10 := by ring
    simp [handleEvent, e1, e2]
  · have e1 : a.1 + 11 - a.1 = 11 := by ring
    have e2 : a.2 + 11 - a.2 = 11 := by ring
    have m1 : min a.1 (a.1 + 11) = a.1 := min_eq_left (by omega)
    have m2 : min a.2 (a.2 + 11) = a.2 := min_eq_left (by omega)
    simp [handleEvent, e1, e2, m1, m2]

theorem C5_red_commit_iff_threshold_witness :
    (handleEvent 0 0 ⟨none, 0, true⟩ (.mouseReleased .left 99 99)
      (.selectingRegion ⟨0, 0, []⟩ ⟨[], [], [], 0, 0⟩ (0, 0) (10, 10))).1 =
      some (.fullscreenCapture ⟨0, 0, []⟩ ⟨[], [], [], 0, 0⟩) :=
  (C5_red_commit_iff_threshold 0 0 ⟨none, 0, true⟩ ⟨0, 0, []⟩
    ⟨[], [], [], 0, 0⟩ (0, 0) (10, 10) 99 99).2.1 (by decide)

/-- C6: a save from `Red` or `Green` issues one `save_image_webp` call
whose file path is
`W{screenW}H{screenH}/screenshot_{ts}_Lx{x}Ty{y}W{w}H{h}.webp` built
from the committed red rectangle — identically in both states, even
though the Green save crops the green sub-rectangle — so the path's
`Lx/Ty/W/H` fields are exactly red's components. -/
theorem C6_save_path_carries_red (sw sh : Nat) (cap : Option Image)
    (ts : Nat) (wOk : Bool) (img : Image) (cache : DisplayCache)
    (red green : Rect) :
    ∃ soR soG : SaveOutcome,
      (handleEvent sw sh ⟨cap, ts, wOk⟩ (.keyPressed .s)
        (.regionSelected img cache red)).2 =
        [Effect.saveCall soR,
         Effect.setPosition (-((img.width : Int) * 2))
           (-((img.height : Int) * 2)),
         Effect.setTitle titleIdle] ∧
      (handleEvent sw sh ⟨cap, ts, wOk⟩ (.keyPressed .s)
        (.subRegionSelected img cache red green)).2 =
        [Effect.saveCall soG,
         Effect.setPosition (-((img.width : Int) * 2))
           (-((img.height : Int) * 2)),
         Effect.setTitle titleIdle] ∧
      soR.fileName =
        "W" ++ toString sw ++ "H" ++ toString sh ++ "/screenshot_" ++
          toString ts ++ "_Lx" ++ toString red.x ++ "Ty" ++
          toString red.y ++ "W" ++ toString (u32ofInt red.w) ++ "H" ++
          toString (u32ofInt red.h) ++ ".webp" ∧
      soG.fileName = soR.fileName ∧
      soR.cropArgs =
        (u32ofInt red.x, u32ofInt red.y, u32ofInt red.w, u32ofInt red.h) ∧
      soG.cropArgs =
        (u32ofInt green.x, u32ofInt green.y, u32ofInt green.w,
         u32ofInt green.h) := by
  exact ⟨_, _, rfl, rfl, rfl, rfl, rfl, rfl⟩

/-- C8: an `S` key in `Red` or `Green` always transitions to `Idle` and
hides the window, for success and failure of the filesystem write
alike; a failing write only changes the log line (one standard-error
line instead of the standard-output line). -/
theorem C8_save_ends_session_regardless_of_io (sw sh : Nat)
    (cap : Option Image) (ts : Nat) (img : Image) (cache : DisplayCache)
    (red green : Rect) : ∀ wOk : Bool,
    ((handleEvent sw sh ⟨cap, ts, wOk⟩ (.keyPressed .s)
        (.regionSelected img cache red)).1 = some State.idle) ∧
    ((handleEvent sw sh ⟨cap, ts, wOk⟩ (.keyPressed .s)
        (.subRegionSelected img cache red green)).1 = some State.idle) ∧
    (∃ so : SaveOutcome,
      (handleEvent sw sh ⟨cap, ts, wOk⟩ (.keyPressed .s)
        (.regionSelected img cache red)).2 =
        [Effect.saveCall so,
         Effect.setPosition (-((img.width : Int) * 2))
           (-((img.height : Int) * 2)),
         Effect.setTitle titleIdle] ∧
      (wOk = false → so.stderrLog = some ("Failed to save image") ∧
        so.stdoutLog = none) ∧
      (wOk = true → so.stderrLog = none)) ∧
    (∃ so : SaveOutcome,
      (handleEvent sw sh ⟨cap, ts, wOk⟩ (.keyPressed .s)
        (.subRegionSelected img cache red green)).2 =
        [Effect.saveCall so,
         Effect.setPosition (-((img.width : Int) * 2))
           (-((img.height : Int) * 2)),
         Effect.setTitle titleIdle] ∧
      (wOk = false → so.stderrLog = some ("Failed to save image") ∧
        so.stdoutLog = none) ∧
      (wOk = true → so.stderrLog = none)) := by
  intro wOk
  refine ⟨rfl, rfl, ⟨_, rfl, ?_, ?_⟩, ⟨_, rfl, ?_, ?_⟩⟩ <;>
  · intro hw
    subst hw
    simp [saveImageWebp]

theorem C8_save_ends_session_regardless_of_io_witness :
    (handleEvent 2 2 ⟨none, 7, false⟩ (.keyPressed .s)
      (.regionSelected ⟨0, 0, []⟩ ⟨[], [], [], 0, 0⟩ ⟨1, 2, 3, 4⟩)).1 =
      some State.idle ∧
    (handleEvent 2 2 ⟨none, 7, false⟩ (.keyPressed .s)
      (.subRegionSelected ⟨0, 0, []⟩ ⟨[], [], [], 0, 0⟩ ⟨1, 2, 3, 4⟩
        ⟨1, 2, 1, 1⟩)).1 = some State.idle :=
  ⟨(C8_save_ends_session_regardless_of_io 2 2 none 7 ⟨0, 0, []⟩
      ⟨[], [], [], 0, 0⟩ ⟨1, 2, 3, 4⟩ ⟨1, 2, 1, 1⟩ false).1,
   (C8_save_ends_session_regardless_of_io 2 2 none 7 ⟨0, 0, []⟩
      ⟨[], [], [], 0, 0⟩ ⟨1, 2, 3, 4⟩ ⟨1, 2, 1, 1⟩ false).2.1⟩

/-- C9: `handle_event` ignores the coordinates carried by a
`MouseReleased` event in every state — the committed rectangle depends
only on the stored anchor and the cursor of the last `MouseMoved`. -/
theorem C9_mouseup_coordinates_ignored (sw sh : Nat) (ext : ExtIn)
    (st : State) (b : MouseBtn) (x y xq yq : Int) :
    handleEvent sw sh ext (.mouseReleased b x y) st =
      handleEvent sw sh ext (.mouseReleased b xq yq) st := by
  cases b <;> cases st <;> rfl
